import Mathlib

set_option maxRecDepth 8000

/-!
Verification of the text-to-speech cloud-function handler (`main.py`).

The development shallowly embeds the program's logic:

* Strings are modelled as `List Char` (Python `str`); `str.find(c, start)`
  becomes `strFind`, returning `none` where Python returns `-1`.
* `_chunk_text` is embedded with an explicit fuel argument bounding the number
  of iterations of its `while` loop; a `none` result models non-termination of
  the Python loop.  The fuel `text.length + 1` given by `_chunk_text` is shown
  sufficient whenever the loop makes progress.
* The request handler `synthesize_speech` is embedded as a function from the
  parsed HTTP request and an oracle describing the external collaborators
  (directory creation, the speech provider, the concatenation tool, the
  uploader) to the trace of externally visible events plus an outcome.
-/

namespace TTS

/-- First index of character `c` in `l` (Python `str.find(c)` restricted to a
single-character needle), `none` when absent. -/
def findChar (c : Char) : List Char → Option Nat
  | [] => none
  | x :: xs => if x = c then some 0 else (findChar c xs).map (· + 1)

/-- Python `s.find(c, start)`: first index `i ≥ start` with `s[i] = c`,
`none` where Python returns `-1`. -/
def strFind (s : List Char) (c : Char) (start : Nat) : Option Nat :=
  (findChar c (s.drop start)).map (· + start)

/-- The `while (len(rest) > max_length)` loop of `_chunk_text` (main.py lines
73–82), with explicit fuel.  Each iteration computes
`end = rest.find(".", max_length)`, falling back to `rest.find(" ", max_length)`;
then `segment = rest[0:end]`, `rest = rest[end:]`.  When both searches fail
Python keeps `end = -1`, so the slices are `rest[0:-1]` (all but the last
character) and `rest[-1:]` (the last character); this is the `none` branch.
Returns the accumulated `text_blocks` and the final `rest`; `none` models a
non-terminating loop (fuel exhausted). -/
def chunkLoop (max_length : Nat) : Nat → List Char → List (List Char) →
    Option (List (List Char) × List Char)
  | 0, _, _ => none
  | fuel + 1, rest, acc =>
    if rest.length > max_length then
      match (match strFind rest '.' max_length with
             | some i => some i
             | none => strFind rest ' ' max_length) with
      | some i => chunkLoop max_length fuel (rest.drop i) (acc ++ [rest.take i])
      | none =>
          chunkLoop max_length fuel (rest.drop (rest.length - 1))
            (acc ++ [rest.take (rest.length - 1)])
    else
      some (acc, rest)

/-- `_chunk_text(text, max_length=3000, min_length=250)` (main.py lines 60–90).
After the loop, the remainder is appended as a final segment unless it is
shorter than `min_length` and a segment already exists, in which case it is
concatenated onto the previous segment (`text_blocks[-1] = text_blocks[-1] + rest`). -/
def _chunk_text (text : List Char) (max_length : Nat) (min_length : Nat) :
    Option (List (List Char)) :=
  match chunkLoop max_length (text.length + 1) text [] with
  | none => none
  | some (text_blocks, rest) =>
      if rest.length > 0 then
        if rest.length < min_length ∧ text_blocks.length > 0 then
          some (text_blocks.dropLast ++ [text_blocks.getLastD [] ++ rest])
        else
          some (text_blocks ++ [rest])
      else
        some text_blocks

/-- Python `"%+f" % pitch` (main.py line 34), restricted to integral pitch
values: an explicit sign followed by the magnitude and six zero decimals,
e.g. `+2.000000`, `-3.000000`, `+0.000000`. -/
def formatPlusF (x : Int) : List Char :=
  (if x < 0 then ['-'] else ['+']) ++ (toString x.natAbs).data ++ (".000000").data

/-- `_textToSsml` (main.py lines 15–38).  The active template (line 38) is
`<speak version="1.0" xmlns="https://www.w3.org/2001/10/synthesis"
xml:lang="en-US"><voice name="{1}"><prosody pitch="{2}st" rate="{3}%">{5}
</prosody></voice></speak>` formatted with
`(lang_code, voice_id, pitch, rate, volume, text)`: positions `{0}` (the
language code) and `{4}` (the volume) do not occur in the template, and the
language attribute is the literal `en-US`. -/
def _textToSsml (text : List Char) (lang_code : List Char) (voice_id : List Char)
    (pitch : Int) (rate : Int) (volume : Int) : List Char :=
  ("<speak version=\"1.0\" xmlns=\"https://www.w3.org/2001/10/synthesis\" xml:lang=\"en-US\"><voice name=\"").data
    ++ voice_id ++ ("\"><prosody pitch=\"").data ++ formatPlusF pitch
    ++ ("st\" rate=\"").data ++ (toString rate).data ++ ("%\">").data
    ++ text ++ ("</prosody></voice></speak>").data

/-- A Python runtime value bound to a request field: a string (every present
query-string argument is a `str`) or a real number (a JSON body may hold
numbers; integral values suffice for this development).  The distinction
matters because line 34 runs `"%+f" % pitch`, which succeeds on numbers and
raises `TypeError` on anything else. -/
inductive PyVal
  | str (s : String)
  | num (x : Int)
deriving DecidableEq

/-- The seven request fields as read from one source (query-string arguments
or the JSON body); `none` marks an absent key (Python `None` from `.get`).
`content` is the text payload.  Query arguments carry only `PyVal.str`
values; JSON bodies may carry either kind. -/
structure SourceFields where
  content : Option (List Char)
  contentType : Option PyVal
  langCode : Option PyVal
  voiceId : Option PyVal
  pitch : Option PyVal
  speakingRate : Option PyVal
  volumeGainDb : Option PyVal
deriving DecidableEq

/-- The inbound HTTP request as the handler observes it: `args = none` models
absent-or-empty (falsy) query arguments; `jsonRaises = true` models
`request.get_json()` raising a `ValueError`; otherwise `json` is the parsed
body (`none` = no JSON body). -/
structure HttpRequest where
  args : Option SourceFields
  jsonRaises : Bool
  json : Option SourceFields
deriving DecidableEq

/-- The parameter tuple the handler holds after the parsing section
(main.py lines 105–128).  On the query path each `.get` may yield `none`;
`content` is present by the branch guard. -/
structure Params where
  content : List Char
  contentType : Option PyVal
  langCode : Option PyVal
  voiceId : Option PyVal
  pitch : Option PyVal
  speakingRate : Option PyVal
  volumeGainDb : Option PyVal
deriving DecidableEq

/-- Whether Python `"%+f" % v` (main.py line 34) succeeds: it requires a real
number; a `str` value (every query-path pitch) or `None` (an absent query
key) raises `TypeError`.  The other parameters are rendered with `str.format`
and never fail. -/
def pyFormatPlusFOk : Option PyVal → Bool
  | some (PyVal.num _) => true
  | _ => false

def fieldsToParams (f : SourceFields) (c : List Char) : Params :=
  { content := c, contentType := f.contentType, langCode := f.langCode,
    voiceId := f.voiceId, pitch := f.pitch, speakingRate := f.speakingRate,
    volumeGainDb := f.volumeGainDb }

/-- Result of the parsing section: `ok` with the seven values, `failed`
(`return None, 500` — the `else` at line 124 or the caught `ValueError` at
line 126), or `keyError`: on the JSON path each field is read with
`request_json[...]`, so a missing key raises an uncaught `KeyError`. -/
inductive ParseResult
  | ok (p : Params)
  | failed
  | keyError
deriving DecidableEq

/-- The `elif request_json and 'content' in request_json` branch
(main.py lines 115–122): every field is read by subscript, so all seven keys
must be present, else a `KeyError` escapes the handler. -/
def parseJsonSide : Option SourceFields → ParseResult
  | none => .failed
  | some j =>
    match j.content with
    | none => .failed
    | some c =>
        if j.pitch.isSome ∧ j.speakingRate.isSome ∧ j.volumeGainDb.isSome ∧
            j.voiceId.isSome ∧ j.langCode.isSome ∧ j.contentType.isSome then
          .ok (fieldsToParams j c)
        else
          .keyError

/-- The parsing section (main.py lines 105–128).  `request.get_json()` runs
first; a `ValueError` from it is caught and yields the generic failure.  Query
arguments are preferred when they are truthy and carry `content`; the `.get`
reads there never fail.  Otherwise the JSON body is used. -/
def parsePhase (r : HttpRequest) : ParseResult :=
  if r.jsonRaises then .failed
  else
    match r.args with
    | some a =>
      match a.content with
      | some c => .ok (fieldsToParams a c)
      | none => parseJsonSide r.json
    | none => parseJsonSide r.json

/-- The external collaborators of one invocation: whether `os.mkdir` succeeds,
which segment syntheses come back `Canceled`, whether the concatenation run
raises `ffmpeg.Error`, whether `_upload_blob` raises, and the environment
bucket plus the per-request uuid basename. -/
structure Oracles where
  mkdirOk : Bool
  synthCanceled : Nat → Bool
  ffmpegError : Bool
  uploadError : Bool
  cloudBucket : String
  basename : String

/-- Externally visible side effects of one invocation, in order. -/
inductive Event
  | mkdir
  | synth (i : Nat)
  | ffmpegConcat (n : Nat)
  | upload
  | rmdir
deriving DecidableEq

/-- How one invocation ends: a `(body, status)` return, an uncaught
`KeyError` or `TypeError` escaping the handler, or divergence of the
chunking loop. -/
inductive Outcome
  | resp (body : Option String) (status : Nat)
  | uncaughtKeyError
  | uncaughtTypeError
  | diverge
deriving DecidableEq

/-- How the synthesis loop exits: it ran over every segment; it returned
`(None, 500)` on a `Canceled` result (line 143); or the markup build at
line 132 raised an uncaught `TypeError` (`"%+f" % pitch` at line 34 with a
non-numeric pitch). -/
inductive LoopExit
  | completed
  | canceled
  | typeError
deriving DecidableEq

/-- The `for i, segment in enumerate(text_blocks)` loop (main.py lines
131–143): each iteration first builds the SSML via `_textToSsml` — which
raises `TypeError` before anything else happens in the iteration when
`pitch` is not a number (`pitchNumeric = false`), as it is for every
query-path request (`str` or `None`) — then calls the synthesizer (event
`synth i`, which writes `{i}.mp3` on success) and returns `(None, 500)` as
soon as a result's reason is `Canceled`.  Yields the events and how the loop
exited. -/
def pipelineLoop (o : Oracles) (pitchNumeric : Bool) :
    List (List Char) → Nat → List Event × LoopExit
  | [], _ => ([], .completed)
  | _ :: bs, i =>
    if pitchNumeric then
      if o.synthCanceled i then
        ([Event.synth i], .canceled)
      else
        let r := pipelineLoop o pitchNumeric bs (i + 1)
        (Event.synth i :: r.1, r.2)
    else
      ([], .typeError)

def successUrl (o : Oracles) : String :=
  "https://storage.googleapis.com/" ++ o.cloudBucket ++ "/" ++ o.basename ++ ".wav"

/-- The request handler `synthesize_speech` (main.py lines 92–162), as the
trace of external events plus an outcome.  `os.mkdir` failure returns
`(None, 500)`.  After parsing, the content is chunked with the default bounds
`(3000, 250)` and synthesized per segment; the `try` block closed at line
128, so a `TypeError` raised by the loop's markup build (non-numeric pitch —
every query-path request with a nonempty segment list) escapes the handler
uncaught.  The concatenation call (event `ffmpegConcat`) is wrapped in
`try ... except ffmpeg.Error` whose handler only logs (lines 150–151), so
control always continues to `_upload_blob` (event `upload`); an upload
exception returns `(None, 500)`, otherwise the response is the public URL
with status 200.  No code path removes the temporary directory, so no
`rmdir` event is ever produced. -/
def synthesize_speech (request : HttpRequest) (o : Oracles) : List Event × Outcome :=
  if o.mkdirOk then
    match parsePhase request with
    | .failed => ([Event.mkdir], .resp none 500)
    | .keyError => ([Event.mkdir], .uncaughtKeyError)
    | .ok p =>
      match _chunk_text p.content 3000 250 with
      | none => ([Event.mkdir], .diverge)
      | some text_blocks =>
        let r := pipelineLoop o (pyFormatPlusFOk p.pitch) text_blocks 0
        match r.2 with
        | .typeError => (Event.mkdir :: r.1, .uncaughtTypeError)
        | .canceled => (Event.mkdir :: r.1, .resp none 500)
        | .completed =>
          let evs := Event.mkdir :: r.1 ++ [Event.ffmpegConcat text_blocks.length, Event.upload]
          if o.uploadError then (evs, .resp none 500)
          else (evs, .resp (some (successUrl o)) 200)
  else
    ([], .resp none 500)

/-! ### Helper lemmas about the chunker -/

theorem findChar_lt_length {c : Char} : ∀ {l : List Char} {j : Nat},
    findChar c l = some j → j < l.length := by
  intro l
  induction l with
  | nil => intro j h; simp [findChar] at h
  | cons x xs ih =>
    intro j h
    by_cases hx : x = c
    · simp [findChar, hx] at h
      simp only [List.length_cons]
      omega
    · simp [findChar, hx] at h
      obtain ⟨j', hj', rfl⟩ := h
      have := ih hj'
      simp only [List.length_cons]
      omega

theorem strFind_bounds {s : List Char} {c : Char} {start i : Nat}
    (h : strFind s c start = some i) : start ≤ i ∧ i < s.length := by
  simp [strFind] at h
  obtain ⟨j, hj, rfl⟩ := h
  have hlt := findChar_lt_length hj
  simp [List.length_drop] at hlt
  omega

/-- Loop invariant: the concatenation of the produced blocks followed by the
final remainder equals the concatenation of the initial accumulator followed
by the initial remaining text. -/
theorem chunkLoop_flatten {max_length : Nat} : ∀ (fuel : Nat) (rest : List Char)
    (acc blocks : List (List Char)) (rest' : List Char),
    chunkLoop max_length fuel rest acc = some (blocks, rest') →
    blocks.flatten ++ rest' = acc.flatten ++ rest := by
  intro fuel
  induction fuel with
  | zero => intro rest acc blocks rest' h; simp [chunkLoop] at h
  | succ fuel ih =>
    intro rest acc blocks rest' h
    rw [chunkLoop] at h
    by_cases hlen : rest.length > max_length
    · rw [if_pos hlen] at h
      cases hfind : (match strFind rest '.' max_length with
                     | some i => some i
                     | none => strFind rest ' ' max_length) with
      | some i =>
          rw [hfind] at h
          have := ih (rest.drop i) (acc ++ [rest.take i]) blocks rest' h
          simpa [List.flatten_append, List.append_assoc, List.take_append_drop] using this
      | none =>
          rw [hfind] at h
          have := ih (rest.drop (rest.length - 1)) (acc ++ [rest.take (rest.length - 1)])
            blocks rest' h
          simpa [List.flatten_append, List.append_assoc, List.take_append_drop] using this
    · rw [if_neg hlen] at h
      cases h
      rfl

/-- Loop invariant: every block produced by the loop body (not already in the
accumulator) has length at least `max_length`. -/
theorem chunkLoop_block_length {max_length : Nat} : ∀ (fuel : Nat) (rest : List Char)
    (acc blocks : List (List Char)) (rest' : List Char),
    chunkLoop max_length fuel rest acc = some (blocks, rest') →
    ∀ b ∈ blocks, b ∈ acc ∨ max_length ≤ b.length := by
  intro fuel
  induction fuel with
  | zero => intro rest acc blocks rest' h; simp [chunkLoop] at h
  | succ fuel ih =>
    intro rest acc blocks rest' h
    rw [chunkLoop] at h
    by_cases hlen : rest.length > max_length
    · rw [if_pos hlen] at h
      cases hfind : (match strFind rest '.' max_length with
                     | some i => some i
                     | none => strFind rest ' ' max_length) with
      | some i =>
          rw [hfind] at h
          intro b hb
          have hi : max_length ≤ i ∧ i < rest.length := by
            cases hf1 : strFind rest '.' max_length with
            | some i' =>
                rw [hf1] at hfind
                cases hfind
                exact strFind_bounds hf1
            | none =>
                rw [hf1] at hfind
                exact strFind_bounds hfind
          rcases ih (rest.drop i) (acc ++ [rest.take i]) blocks rest' h b hb with hmem | hge
          · rcases List.mem_append.1 hmem with hmem' | hmem'
            · exact Or.inl hmem'
            · right
              simp at hmem'
              subst hmem'
              simp [List.length_take]
              omega
          · exact Or.inr hge
      | none =>
          rw [hfind] at h
          intro b hb
          rcases ih (rest.drop (rest.length - 1)) (acc ++ [rest.take (rest.length - 1)])
              blocks rest' h b hb with hmem | hge
          · rcases List.mem_append.1 hmem with hmem' | hmem'
            · exact Or.inl hmem'
            · right
              simp at hmem'
              subst hmem'
              simp [List.length_take]
              omega
          · exact Or.inr hge
    · rw [if_neg hlen] at h
      cases h
      intro b hb
      exact Or.inl hb

/-- Reattaching a remainder to the last block leaves the concatenation of all
blocks extended by that remainder. -/
theorem dropLast_getLastD_flatten : ∀ (bs : List (List Char)) (d r : List Char),
    bs ≠ [] → (bs.dropLast ++ [bs.getLastD d ++ r]).flatten = bs.flatten ++ r := by
  intro bs
  induction bs with
  | nil => intro d r h; exact absurd rfl h
  | cons b bs' ih =>
    intro d r _
    cases bs' with
    | nil => simp
    | cons b' bs'' =>
        rw [List.dropLast_cons₂, List.getLastD_cons]
        have := ih b r (by simp)
        simp only [List.cons_append, List.flatten_cons, this]
        simp

/-- Unfolding `_chunk_text` once the loop's result is known. -/
theorem chunk_text_eq (text : List Char) (max_length min_length : Nat)
    (bs : List (List Char)) (rest : List Char)
    (h : chunkLoop max_length (text.length + 1) text [] = some (bs, rest)) :
    _chunk_text text max_length min_length =
      (if rest.length > 0 then
        if rest.length < min_length ∧ bs.length > 0 then
          some (bs.dropLast ++ [bs.getLastD [] ++ rest])
        else some (bs ++ [rest])
      else some bs) := by
  rw [_chunk_text, h]

/-! ### Claims about the chunker -/

/-- C4 (amended: nonempty inputs): for every nonempty input text of length at
most `max_length`, `_chunk_text` returns exactly one segment, equal to the
input text. -/
theorem c4_short_text_single_segment (text : List Char) (max_length min_length : Nat)
    (h1 : text ≠ []) (h2 : text.length ≤ max_length) :
    _chunk_text text max_length min_length = some [text] := by
  have hloop : chunkLoop max_length (text.length + 1) text [] = some ([], text) := by
    rw [chunkLoop, if_neg (by omega)]
  rw [_chunk_text, hloop]
  have hpos : text.length > 0 := List.length_pos.2 h1
  simp [hpos]

/-- C4 witness: `_chunk_text "ab"` with `max_length = 5` is the single
segment `"ab"`. -/
theorem c4_witness : _chunk_text ['a', 'b'] 5 2 = some [['a', 'b']] :=
  c4_short_text_single_segment ['a', 'b'] 5 2 (by decide) (by decide)

/-- C4 counterexample: the empty text has length `0 ≤ 3000`, yet
`_chunk_text` returns zero segments, not one segment equal to the input. -/
theorem c4_counterexample :
    _chunk_text ([] : List Char) 3000 250 = some [] ∧
    _chunk_text ([] : List Char) 3000 250 ≠ some [[]] := by
  constructor
  · decide
  · decide

/-- C5: whenever `_chunk_text` returns a result, concatenating the returned
segments in order reconstructs the original input text exactly. -/
theorem c5_concat_segments_id (text : List Char) (max_length min_length : Nat)
    (blocks : List (List Char))
    (h : _chunk_text text max_length min_length = some blocks) :
    blocks.flatten = text := by
  cases hlp : chunkLoop max_length (text.length + 1) text [] with
  | none => rw [_chunk_text, hlp] at h; cases h
  | some pr =>
    obtain ⟨bs, rest⟩ := pr
    rw [chunk_text_eq text max_length min_length bs rest hlp] at h
    have hinv := chunkLoop_flatten (text.length + 1) text [] bs rest hlp
    simp only [List.flatten_nil, List.nil_append] at hinv
    by_cases hr : rest.length > 0
    · rw [if_pos hr] at h
      by_cases hm : rest.length < min_length ∧ bs.length > 0
      · rw [if_pos hm] at h
        cases h
        have hbs : bs ≠ [] := by
          intro hnil
          subst hnil
          simp at hm
        rw [dropLast_getLastD_flatten bs [] rest hbs]
        exact hinv
      · rw [if_neg hm] at h
        cases h
        rw [List.flatten_append]
        simpa using hinv
    · rw [if_neg hr] at h
      cases h
      have hnil : rest = [] := List.length_eq_zero.1 (by omega)
      subst hnil
      simpa using hinv

/-- C5 witness: on the two-character text `"hi"` the returned segments
flatten back to the input. -/
theorem c5_witness : ([['h', 'i']] : List (List Char)).flatten = ['h', 'i'] :=
  c5_concat_segments_id ['h', 'i'] 3000 250 [['h', 'i']] (by decide)

/-- C10: every segment accumulated by the splitting loop — the split index is
searched starting at offset `max_length`, and the fallback split at the last
character also cuts beyond `max_length` — has length at least `max_length`. -/
theorem c10_loop_segments_at_least_max (fuel : Nat) (rest : List Char)
    (max_length : Nat) (blocks : List (List Char)) (rest' : List Char)
    (h : chunkLoop max_length fuel rest [] = some (blocks, rest')) :
    ∀ b ∈ blocks, max_length ≤ b.length := by
  intro b hb
  rcases chunkLoop_block_length fuel rest [] blocks rest' h b hb with hmem | hge
  · simp at hmem
  · exact hge

/-- C10 witness: on `"ab.cd"` with `max_length = 1` the loop produces the
segments `"ab"` and `".c"`; the first has length at least `1`. -/
theorem c10_witness : 1 ≤ (['a', 'b'] : List Char).length :=
  c10_loop_segments_at_least_max 6 ['a', 'b', '.', 'c', 'd'] 1
    [['a', 'b'], ['.', 'c']] ['d'] (by decide) ['a', 'b'] (by decide)

/-- C3 counterexample: `"AAAA"` with `max_length = 2`, `min_length = 3` has no
`'.'` and no `' '` at or after offset `2` while being longer than `2`; yet
`_chunk_text` neither loops forever nor fails — it returns normally, with the
whole input as its one segment. -/
theorem c3_counterexample :
    (['A', 'A', 'A', 'A'] : List Char).length > 2 ∧
    strFind ['A', 'A', 'A', 'A'] '.' 2 = none ∧
    strFind ['A', 'A', 'A', 'A'] ' ' 2 = none ∧
    _chunk_text ['A', 'A', 'A', 'A'] 2 3 = some [['A', 'A', 'A', 'A']] := by
  refine ⟨by decide, by decide, by decide, by decide⟩

/-- C3 (amended): when the text is longer than `max_length` but neither a
`'.'` nor a `' '` occurs at or after offset `max_length`, both `find` calls
yield Python's `-1`, so the slices `rest[0:-1]` / `rest[-1:]` split off the
final character; the loop then terminates and (for `min_length > 1`) the
one-character remainder is merged back, so `_chunk_text` returns the whole
input as a single segment — no error is raised and nothing is lost. -/
theorem c3_no_boundary_returns_whole_text (text : List Char)
    (max_length min_length : Nat) (hmax : 1 ≤ max_length)
    (hlen : text.length > max_length)
    (hdot : strFind text '.' max_length = none)
    (hsp : strFind text ' ' max_length = none)
    (hmin : 1 < min_length) :
    _chunk_text text max_length min_length = some [text] := by
  have hlen2 : 2 ≤ text.length := by omega
  have hdlen : (text.drop (text.length - 1)).length = 1 := by
    simp [List.length_drop]
    omega
  have h1 : chunkLoop max_length (text.length + 1) text [] =
      some ([text.take (text.length - 1)], text.drop (text.length - 1)) := by
    rw [chunkLoop, if_pos hlen]
    simp only [hdot, hsp]
    generalize hseg : text.take (text.length - 1) = seg1
    generalize hrest : text.drop (text.length - 1) = rest1
    have hdlen1 : rest1.length = 1 := by rw [← hrest]; exact hdlen
    obtain ⟨k, hk⟩ : ∃ k, text.length = k + 1 := ⟨text.length - 1, by omega⟩
    rw [hk, chunkLoop, if_neg (by omega)]
    simp
  rw [chunk_text_eq text max_length min_length _ _ h1]
  rw [if_pos (by rw [hdlen]; omega)]
  rw [if_pos (by constructor <;> simp [hdlen, hmin])]
  simp [List.take_append_drop]

/-- C3 witness: the amended statement at the concrete boundary-free input
`"AAAA"`, `max_length = 2`, `min_length = 3`. -/
theorem c3_witness : _chunk_text ['A', 'A', 'A', 'A'] 2 3 = some [['A', 'A', 'A', 'A']] :=
  c3_no_boundary_returns_whole_text ['A', 'A', 'A', 'A'] 2 3 (by decide) (by decide)
    (by decide) (by decide) (by decide)

/-- The spec's example input: `"A"*3500 + ". " + "B"*10`. -/
def c6text : List Char :=
  List.replicate 3500 'A' ++ '.' :: ' ' :: List.replicate 10 'B'

theorem findChar_replicate_cons {a c : Char} (hne : a ≠ c) :
    ∀ (n : Nat) (l : List Char),
    findChar c (List.replicate n a ++ c :: l) = some n := by
  intro n
  induction n with
  | zero => intro l; simp [findChar]
  | succ n ih =>
      intro l
      rw [List.replicate_succ, List.cons_append, findChar, if_neg hne, ih l]
      rfl

theorem c6_find : strFind c6text '.' 3000 = some 3500 := by
  rw [strFind]
  have hdrop : c6text.drop 3000 =
      List.replicate 500 'A' ++ '.' :: ' ' :: List.replicate 10 'B' := by
    rw [c6text, show (3500 : Nat) = 3000 + 500 by norm_num, List.replicate_add,
      List.append_assoc]
    exact List.drop_left' (List.length_replicate 3000 'A')
  rw [hdrop, findChar_replicate_cons (by decide) 500]
  rfl

theorem c6_chunkLoop : chunkLoop 3000 (c6text.length + 1) c6text [] =
    some ([List.replicate 3500 'A'], '.' :: ' ' :: List.replicate 10 'B') := by
  have hlen : c6text.length = 3512 := by
    simp only [c6text, List.length_append, List.length_replicate, List.length_cons]
  have htake : c6text.take 3500 = List.replicate 3500 'A' := by
    rw [c6text]
    exact List.take_left' (List.length_replicate 3500 'A')
  have hdrop : c6text.drop 3500 = '.' :: ' ' :: List.replicate 10 'B' := by
    rw [c6text]
    exact List.drop_left' (List.length_replicate 3500 'A')
  rw [chunkLoop, if_pos (by rw [hlen]; norm_num)]
  simp only [c6_find]
  rw [htake, hdrop, hlen, show (3512 : Nat) = 3511 + 1 by norm_num, chunkLoop]
  rw [if_neg (by decide)]
  rfl

theorem c6_eval : _chunk_text c6text 3000 250 = some [c6text] := by
  rw [chunk_text_eq c6text 3000 250 _ _ c6_chunkLoop]
  rw [if_pos (by decide)]
  rw [if_pos (by exact ⟨by decide, by decide⟩)]
  rfl

/-- C6 counterexample: on the spec's example input `_chunk_text` returns one
segment, not two. -/
theorem c6_counterexample :
    (_chunk_text c6text 3000 250).map List.length = some 1 ∧
    (_chunk_text c6text 3000 250).map List.length ≠ some 2 := by
  rw [c6_eval]
  exact ⟨rfl, by simp⟩

/-- C6 (amended): on `"A"*3500 + ". " + "B"*10` with bounds `(3000, 250)` the
loop produces one segment `"A"*3500` of length `3500` — up to but *excluding*
the located `'.'` — and the 12-character remainder `". " + "B"*10`, shorter
than `min_length`, is merged onto it, so the final result is a single segment
equal to the whole input. -/
theorem c6_example_single_merged_segment :
    chunkLoop 3000 (c6text.length + 1) c6text [] =
      some ([List.replicate 3500 'A'], '.' :: ' ' :: List.replicate 10 'B') ∧
    _chunk_text c6text 3000 250 = some [c6text] :=
  ⟨c6_chunkLoop, c6_eval⟩

/-! ### Claims about the markup builder -/

theorem infix_of_eq_append {l p m s : List Char} (h : l = p ++ m ++ s) :
    m <:+: l :=
  ⟨p, s, h.symm⟩

def ssmlA : List Char :=
  ("<speak version=\"1.0\" xmlns=\"https://www.w3.org/2001/10/synthesis\" ").data
def ssmlLang : List Char := ("xml:lang=\"en-US\"").data
def ssmlB : List Char := (">").data
def ssmlC : List Char := ("<voice name=\"").data
def ssmlD : List Char := ("\">").data
def ssmlE : List Char := ("<prosody ").data
def ssmlF : List Char := ("pitch=\"").data
def ssmlG : List Char := ("st\"").data
def ssmlH : List Char := (" ").data
def ssmlI : List Char := ("rate=\"").data
def ssmlJ : List Char := ("%\"").data
def ssmlK : List Char := ("</prosody></voice></speak>").data


/-- C7 counterexample: for `languageCode = "fr-FR"` the generated document
does not contain `fr-FR` anywhere; its language attribute is the hardcoded
`en-US`.  (Pitch and rate are rendered as the claim says.) -/
theorem c7_counterexample :
    ¬ (("fr-FR").data <:+: _textToSsml ['h', 'i'] ("fr-FR").data ['v'] 2 0 0) ∧
    ("xml:lang=\"en-US\"").data <:+: _textToSsml ['h', 'i'] ("fr-FR").data ['v'] 2 0 0 ∧
    ("pitch=\"+2.000000st\"").data <:+: _textToSsml ['h', 'i'] ("fr-FR").data ['v'] 2 0 0 := by
  refine ⟨by decide, by decide, by decide⟩

/-- C7 (amended): the markup builder wraps the segment text with the requested
voice and prosody — the voice is selected by `voice_id`, pitch is rendered
with an explicit sign (`%+f`, e.g. `+2.000000`) and rate as a percentage —
but the document's language is the hardcoded literal `en-US`: the output is
entirely independent of the given `lang_code` (and of `volume`). -/
theorem c7_markup_properties (text lang1 lang2 voice : List Char)
    (pitch rate volume1 volume2 : Int) :
    _textToSsml text lang1 voice pitch rate volume1 =
      _textToSsml text lang2 voice pitch rate volume2 ∧
    ("xml:lang=\"en-US\"").data <:+: _textToSsml text lang1 voice pitch rate volume1 ∧
    (("<voice name=\"").data ++ voice ++ ("\">").data) <:+:
      _textToSsml text lang1 voice pitch rate volume1 ∧
    (("pitch=\"").data ++ formatPlusF pitch ++ ("st\"").data) <:+:
      _textToSsml text lang1 voice pitch rate volume1 ∧
    (("rate=\"").data ++ (toString rate).data ++ ("%\"").data) <:+:
      _textToSsml text lang1 voice pitch rate volume1 ∧
    text <:+: _textToSsml text lang1 voice pitch rate volume1 ∧
    ((formatPlusF pitch).head? = some '-' ∨ (formatPlusF pitch).head? = some '+') := by
  refine ⟨rfl, ?_, ?_, ?_, ?_, ?_, ?_⟩
  · refine ⟨ssmlA,
      ssmlB ++ ssmlC ++ voice ++ ssmlD ++ ssmlE ++ ssmlF ++ formatPlusF pitch
        ++ ssmlG ++ ssmlH ++ ssmlI ++ (toString rate).data ++ ssmlJ
        ++ ssmlB ++ text ++ ssmlK, ?_⟩
    simp [_textToSsml, ssmlA, ssmlLang, ssmlB, ssmlC, ssmlD, ssmlE, ssmlF,
      ssmlG, ssmlH, ssmlI, ssmlJ, ssmlK, List.append_assoc]
  · refine ⟨ssmlA ++ ssmlLang ++ ssmlB,
      ssmlE ++ ssmlF ++ formatPlusF pitch ++ ssmlG ++ ssmlH ++ ssmlI
        ++ (toString rate).data ++ ssmlJ ++ ssmlB ++ text ++ ssmlK, ?_⟩
    simp [_textToSsml, ssmlA, ssmlLang, ssmlB, ssmlC, ssmlD, ssmlE, ssmlF,
      ssmlG, ssmlH, ssmlI, ssmlJ, ssmlK, List.append_assoc]
  · refine ⟨ssmlA ++ ssmlLang ++ ssmlB ++ ssmlC ++ voice ++ ssmlD ++ ssmlE,
      ssmlH ++ ssmlI ++ (toString rate).data ++ ssmlJ ++ ssmlB ++ text ++ ssmlK, ?_⟩
    simp [_textToSsml, ssmlA, ssmlLang, ssmlB, ssmlC, ssmlD, ssmlE, ssmlF,
      ssmlG, ssmlH, ssmlI, ssmlJ, ssmlK, List.append_assoc]
  · refine ⟨ssmlA ++ ssmlLang ++ ssmlB ++ ssmlC ++ voice ++ ssmlD ++ ssmlE
        ++ ssmlF ++ formatPlusF pitch ++ ssmlG ++ ssmlH,
      ssmlB ++ text ++ ssmlK, ?_⟩
    simp [_textToSsml, ssmlA, ssmlLang, ssmlB, ssmlC, ssmlD, ssmlE, ssmlF,
      ssmlG, ssmlH, ssmlI, ssmlJ, ssmlK, List.append_assoc]
  · refine ⟨ssmlA ++ ssmlLang ++ ssmlB ++ ssmlC ++ voice ++ ssmlD ++ ssmlE
        ++ ssmlF ++ formatPlusF pitch ++ ssmlG ++ ssmlH ++ ssmlI
        ++ (toString rate).data ++ ssmlJ ++ ssmlB,
      ssmlK, ?_⟩
    simp [_textToSsml, ssmlA, ssmlLang, ssmlB, ssmlC, ssmlD, ssmlE, ssmlF,
      ssmlG, ssmlH, ssmlI, ssmlJ, ssmlK, List.append_assoc]
  · by_cases hx : pitch < 0
    · left
      simp [formatPlusF, hx]
    · right
      simp [formatPlusF, hx]

/-! ### Claims about the request handler -/

/-- Every event the synthesis loop emits is a `synth` event. -/
theorem pipelineLoop_events (o : Oracles) (pn : Bool) :
    ∀ (bs : List (List Char)) (i : Nat),
    ∀ e ∈ (pipelineLoop o pn bs i).1, ∃ j, e = Event.synth j := by
  intro bs
  induction bs with
  | nil => intro i e he; simp [pipelineLoop] at he
  | cons b bs' ih =>
    intro i e he
    cases pn with
    | false =>
        rw [pipelineLoop] at he
        simp at he
    | true =>
        cases hcb : o.synthCanceled i with
        | true =>
            rw [pipelineLoop] at he
            simp [hcb] at he
            exact ⟨i, he⟩
        | false =>
            rw [pipelineLoop] at he
            simp [hcb] at he
            rcases he with he | he
            · exact ⟨i, he⟩
            · exact ih (i + 1) e he

/-- With a numeric pitch, a cancelled segment in range makes the loop exit
with `canceled` (the `return None, 500` at line 143). -/
theorem pipelineLoop_canceled_of_canceled (o : Oracles) :
    ∀ (bs : List (List Char)) (i0 j : Nat), j < bs.length →
    o.synthCanceled (i0 + j) = true →
    (pipelineLoop o true bs i0).2 = LoopExit.canceled := by
  intro bs
  induction bs with
  | nil => intro i0 j hj _; simp at hj
  | cons b bs' ih =>
    intro i0 j hj hc
    cases hcb : o.synthCanceled i0 with
    | true => rw [pipelineLoop]; simp [hcb]
    | false =>
        rw [pipelineLoop]
        cases j with
        | zero => rw [Nat.add_zero] at hc; rw [hc] at hcb; cases hcb
        | succ j' =>
            have hc' : o.synthCanceled (i0 + 1 + j') = true := by
              rw [show i0 + 1 + j' = i0 + (j' + 1) by omega]
              exact hc
            have hres := ih (i0 + 1) j' (by simpa using hj) hc'
            simp [hcb, hres]

/-- A synthesized segment has no cancelled predecessor: the loop stops at the
first cancellation. -/
theorem pipelineLoop_mem_synth (o : Oracles) :
    ∀ (bs : List (List Char)) (i0 j : Nat),
    Event.synth j ∈ (pipelineLoop o true bs i0).1 →
    ∀ i, i0 ≤ i → i < j → o.synthCanceled i = false := by
  intro bs
  induction bs with
  | nil => intro i0 j h; simp [pipelineLoop] at h
  | cons b bs' ih =>
    intro i0 j hmem i hi0 hij
    cases hcb : o.synthCanceled i0 with
    | true =>
        rw [pipelineLoop] at hmem
        simp [hcb] at hmem
        omega
    | false =>
        rw [pipelineLoop] at hmem
        simp [hcb] at hmem
        rcases hmem with h | h
        · omega
        · by_cases hi : i = i0
          · subst hi; exact hcb
          · exact ih (i0 + 1) j h i (by omega) hij

/-- C2: no execution path of the handler ever emits a directory-removal
event: the per-request temporary workspace is never deleted, on success or on
any failure path. -/
theorem c2_workspace_never_deleted (request : HttpRequest) (o : Oracles) :
    Event.rmdir ∉ (synthesize_speech request o).1 := by
  have hpl : ∀ (pn : Bool) (bs : List (List Char)) (i : Nat),
      Event.rmdir ∉ (pipelineLoop o pn bs i).1 := by
    intro pn bs i hmem
    obtain ⟨j, hj⟩ := pipelineLoop_events o pn bs i Event.rmdir hmem
    cases hj
  rw [synthesize_speech]
  by_cases hm : o.mkdirOk
  · rw [if_pos hm]
    cases hp : parsePhase request with
    | failed => simp
    | keyError => simp
    | ok p =>
        cases hc : _chunk_text p.content 3000 250 with
        | none => simp [hc]
        | some blocks =>
            cases hr : (pipelineLoop o (pyFormatPlusFOk p.pitch) blocks 0).2 with
            | typeError => simp [hc, hr, hpl]
            | canceled => simp [hc, hr, hpl]
            | completed =>
                by_cases hu : o.uploadError = true
                · simp [hc, hr, hu, hpl]
                · simp [hc, hr, hu, hpl]
  · rw [if_neg hm]
    simp

/-- The loop trace and exit depend only on the `synthCanceled` component of
the oracle. -/
theorem pipelineLoop_congr (o1 o2 : Oracles)
    (h : o1.synthCanceled = o2.synthCanceled) :
    ∀ (pn : Bool) (bs : List (List Char)) (i : Nat),
    pipelineLoop o1 pn bs i = pipelineLoop o2 pn bs i := by
  intro pn bs
  induction bs with
  | nil => intro i; rfl
  | cons x bs' ih =>
    intro i
    rw [pipelineLoop, pipelineLoop, h, ih]

/-- C1 (amended): a failure of the concatenation tool is only logged
(`except ffmpeg.Error: logging.error(e)` with no return): the handler's
entire observable behaviour — event trace and outcome — is independent of
whether the tool fails.  In particular the Publisher is still invoked and a
success response can still be produced. -/
theorem c1_ffmpeg_failure_not_fatal (request : HttpRequest) (m : Bool)
    (s : Nat → Bool) (f1 f2 u : Bool) (cb bn : String) :
    synthesize_speech request ⟨m, s, f1, u, cb, bn⟩ =
      synthesize_speech request ⟨m, s, f2, u, cb, bn⟩ := by
  rw [synthesize_speech, synthesize_speech]
  simp only [pipelineLoop_congr ⟨m, s, f1, u, cb, bn⟩ ⟨m, s, f2, u, cb, bn⟩ rfl,
    successUrl]

/-- Concrete query-path request fields used by the C8 witness: every present
value is a `str`, as `request.args.get` returns. -/
def demoFields : SourceFields :=
  { content := some ['h', 'i'], contentType := some (PyVal.str "t"),
    langCode := some (PyVal.str "en"), voiceId := some (PyVal.str "v"),
    pitch := some (PyVal.str "0"), speakingRate := some (PyVal.str "1"),
    volumeGainDb := some (PyVal.str "0") }

/-- Concrete JSON body with `content`, all required fields, and a numeric
pitch: on this input the markup build at line 132 succeeds and the pipeline
reaches the assembly stage. -/
def c1fields : SourceFields :=
  { content := some ['h', 'i'], contentType := some (PyVal.str "t"),
    langCode := some (PyVal.str "en"), voiceId := some (PyVal.str "v"),
    pitch := some (PyVal.num 2), speakingRate := some (PyVal.num 1),
    volumeGainDb := some (PyVal.num 0) }

def c1request : HttpRequest :=
  { args := none, jsonRaises := false, json := some c1fields }

def c1oracle : Oracles :=
  { mkdirOk := true, synthCanceled := fun _ => false, ffmpegError := true,
    uploadError := false, cloudBucket := "b", basename := "u" }

/-- C1 counterexample: on a JSON-body request with a numeric pitch, with the
concatenation tool failing (`ffmpegError = true`), the Publisher is still
invoked (an `upload` event occurs) and a success response with the public URL
is produced. -/
theorem c1_counterexample :
    c1oracle.ffmpegError = true ∧
    Event.upload ∈ (synthesize_speech c1request c1oracle).1 ∧
    (synthesize_speech c1request c1oracle).2 =
      Outcome.resp (some "https://storage.googleapis.com/b/u.wav") 200 := by
  refine ⟨rfl, by decide, by decide⟩

/-- C9: on a request whose pitch is a number — so the markup build at line
132 does not raise, which a cancellation report presupposes, since the
provider is only consulted with a successfully built document — if the
provider cancels some segment in range, the handler returns the failure
response `(None, 500)`, the assembler and the publisher are never invoked,
and every segment that was synthesized has no cancelled predecessor —
processing stopped at the first cancellation. -/
theorem c9_synthesis_failure_aborts (request : HttpRequest) (o : Oracles)
    (p : Params) (blocks : List (List Char))
    (hm : o.mkdirOk = true)
    (hp : parsePhase request = .ok p)
    (x : Int) (hx : p.pitch = some (PyVal.num x))
    (hc : _chunk_text p.content 3000 250 = some blocks)
    (k : Nat) (hk : k < blocks.length) (hcan : o.synthCanceled k = true) :
    (synthesize_speech request o).2 = .resp none 500 ∧
    (∀ n, Event.ffmpegConcat n ∉ (synthesize_speech request o).1) ∧
    Event.upload ∉ (synthesize_speech request o).1 ∧
    (∀ j, Event.synth j ∈ (synthesize_speech request o).1 →
      ∀ i, i < j → o.synthCanceled i = false) := by
  have hnum : pyFormatPlusFOk p.pitch = true := by rw [hx]; rfl
  have hcanc : (pipelineLoop o true blocks 0).2 = LoopExit.canceled :=
    pipelineLoop_canceled_of_canceled o blocks 0 k hk (by simpa using hcan)
  have hss : synthesize_speech request o =
      (Event.mkdir :: (pipelineLoop o true blocks 0).1, .resp none 500) := by
    rw [synthesize_speech, if_pos hm, hp]
    simp only []
    rw [hc]
    simp only [hnum]
    rw [hcanc]
  rw [hss]
  refine ⟨rfl, ?_, ?_, ?_⟩
  · intro n hmem
    simp only [List.mem_cons] at hmem
    rcases hmem with h | h
    · cases h
    · obtain ⟨j, hj⟩ := pipelineLoop_events o true blocks 0 _ h
      cases hj
  · intro hmem
    simp only [List.mem_cons] at hmem
    rcases hmem with h | h
    · cases h
    · obtain ⟨j, hj⟩ := pipelineLoop_events o true blocks 0 _ h
      cases hj
  · intro j hmem i hij
    simp only [List.mem_cons] at hmem
    rcases hmem with h | h
    · cases h
    · exact pipelineLoop_mem_synth o blocks 0 j h i (Nat.zero_le i) hij

/-- Concrete JSON body with `content`, all required fields, and a numeric
pitch, used by the C9 witness. -/
def c9fields : SourceFields :=
  { content := some ['h', 'i'], contentType := some (PyVal.str "t"),
    langCode := some (PyVal.str "en"), voiceId := some (PyVal.str "v"),
    pitch := some (PyVal.num 2), speakingRate := some (PyVal.num 1),
    volumeGainDb := some (PyVal.num 0) }

def c9request : HttpRequest :=
  { args := none, jsonRaises := false, json := some c9fields }

def c9oracle : Oracles :=
  { mkdirOk := true, synthCanceled := fun _ => true, ffmpegError := false,
    uploadError := false, cloudBucket := "b", basename := "u" }

/-- C9 witness: a concrete JSON-body one-segment request with numeric pitch
whose first synthesis is cancelled yields the failure response and no publish
event. -/
theorem c9_witness :
    (synthesize_speech c9request c9oracle).2 = .resp none 500 ∧
    Event.upload ∉ (synthesize_speech c9request c9oracle).1 :=
  ⟨(c9_synthesis_failure_aborts c9request c9oracle
      (fieldsToParams c9fields ['h', 'i']) [['h', 'i']] rfl (by decide)
      2 (by decide) (by decide) 0 (by decide) rfl).1,
   (c9_synthesis_failure_aborts c9request c9oracle
      (fieldsToParams c9fields ['h', 'i']) [['h', 'i']] rfl (by decide)
      2 (by decide) (by decide) 0 (by decide) rfl).2.2.1⟩

def c8json : SourceFields :=
  { content := some ['h', 'i'], contentType := some (PyVal.str "t"),
    langCode := some (PyVal.str "en"), voiceId := some (PyVal.str "v"),
    pitch := none, speakingRate := some (PyVal.num 1),
    volumeGainDb := some (PyVal.num 0) }

def c8request : HttpRequest :=
  { args := none, jsonRaises := false, json := some c8json }

def c8oracle : Oracles :=
  { mkdirOk := true, synthCanceled := fun _ => false, ffmpegError := false,
    uploadError := false, cloudBucket := "b", basename := "u" }

/-- C8 counterexample: a JSON-body request carrying `content` but missing the
required field `pitch` does not yield the generic `Failed` outcome — the
subscript read raises a `KeyError` that escapes the handler. -/
theorem c8_counterexample :
    c8json.pitch = none ∧
    synthesize_speech c8request c8oracle = ([Event.mkdir], Outcome.uncaughtKeyError) ∧
    Outcome.uncaughtKeyError ≠ Outcome.resp none 500 := by
  refine ⟨rfl, by decide, by decide⟩

/-- C8 (amended): query arguments are preferred whenever they carry a
`content` marker; a missing `content` marker in both sources, or a
`ValueError` while reading the JSON body, yields the generic failure
`(None, 500)`; but a JSON body that has `content` while missing another
required field raises an uncaught `KeyError` instead of the generic failure,
and on the query path the non-`content` fields are read with `.get`, so their
absence causes no parse-time failure at all. -/
theorem c8_parse_behavior :
    (∀ (a j : SourceFields) (c : List Char), a.content = some c →
      parsePhase { args := some a, jsonRaises := false, json := some j } =
        .ok (fieldsToParams a c)) ∧
    (∀ (r : HttpRequest), r.jsonRaises = false →
      (∀ a, r.args = some a → a.content = none) →
      (∀ j, r.json = some j → j.content = none) →
      parsePhase r = .failed) ∧
    (∀ (r : HttpRequest), r.jsonRaises = true → parsePhase r = .failed) ∧
    (∀ (j : SourceFields) (c : List Char), j.content = some c → j.pitch = none →
      parseJsonSide (some j) = .keyError) ∧
    (∀ (r : HttpRequest) (o : Oracles), o.mkdirOk = true → parsePhase r = .failed →
      synthesize_speech r o = ([Event.mkdir], .resp none 500)) := by
  refine ⟨?_, ?_, ?_, ?_, ?_⟩
  · intro a j c hc
    simp [parsePhase, hc]
  · intro r hjr hargs hjson
    rw [parsePhase, if_neg (by simp [hjr])]
    cases ha : r.args with
    | some a =>
        simp only [hargs a ha]
        cases hj : r.json with
        | some j => simp [parseJsonSide, hjson j hj]
        | none => simp [parseJsonSide]
    | none =>
        cases hj : r.json with
        | some j => simp [parseJsonSide, hjson j hj]
        | none => simp [parseJsonSide]
  · intro r hjr
    simp [parsePhase, hjr]
  · intro j c hc hpitch
    simp [parseJsonSide, hc, hpitch]
  · intro r o hm hf
    rw [synthesize_speech, if_pos hm, hf]

/-- C8 witness: the preference clause applied at a concrete request carrying
`content` in both the query arguments and the JSON body. -/
theorem c8_witness :
    parsePhase { args := some demoFields, jsonRaises := false, json := some c8json } =
      .ok (fieldsToParams demoFields ['h', 'i']) :=
  c8_parse_behavior.1 demoFields c8json ['h', 'i'] rfl

end TTS

